import Mathlib

/-!
Verification of the corner-pin video player core: a shallow embedding of the
WebGL renderer's state, geometry engine, fragment shader, keyboard handler,
settings store and debounced persistence, with theorems checking the design
document's claims against the embedded code.  JavaScript numbers are modelled
as exact rationals.
-/

namespace AVP

/-- The four quad corners of the corner-pin system (TL, TR, BL, BR). -/
inductive Corner where
  | TL
  | TR
  | BL
  | BR
deriving DecidableEq

/-- A corner's offset from its default position, in normalized video
coordinates (the `{ x, y }` records of `cornerOffsets`). -/
structure CornerOffset where
  x : ℚ
  y : ℚ
deriving DecidableEq

/-- The `cornerOffsets` object: one offset per corner. -/
structure CornerOffsetSet where
  TL : CornerOffset
  TR : CornerOffset
  BL : CornerOffset
  BR : CornerOffset
deriving DecidableEq

/-- Top-level mutable state of the renderer page: `canvasScale`, `canvasX`,
`canvasY`, `videoMirrored`, `cornerOffsets` and `selectedCorner`. -/
structure AppState where
  canvasScale : ℚ
  canvasX : ℚ
  canvasY : ℚ
  videoMirrored : Bool
  cornerOffsets : CornerOffsetSet
  selectedCorner : Option Corner
deriving DecidableEq

/-- All-zero corner offsets. -/
def zeroCorners : CornerOffsetSet := ⟨⟨0, 0⟩, ⟨0, 0⟩, ⟨0, 0⟩, ⟨0, 0⟩⟩

/-- The initial module state (`canvasScale = 1.0`, offsets zero, nothing
selected). -/
def initialApp : AppState := ⟨1.0, 0, 0, false, zeroCorners, none⟩

/-- Read one corner's offset out of the set. -/
def getOffset (co : CornerOffsetSet) : Corner → CornerOffset
  | .TL => co.TL
  | .TR => co.TR
  | .BL => co.BL
  | .BR => co.BR

/-- Replace one corner's offset by applying `f` to it
(the `cornerOffsets[selectedCorner]` mutation). -/
def updateCorner (co : CornerOffsetSet) (c : Corner) (f : CornerOffset → CornerOffset) :
    CornerOffsetSet :=
  match c with
  | .TL => { co with TL := f co.TL }
  | .TR => { co with TR := f co.TR }
  | .BL => { co with BL := f co.BL }
  | .BR => { co with BR := f co.BR }

/-! ## Geometry engine (`updateQuadWithCorners`) -/

/-- One vertex of the quad: clip-space position and texture coordinate. -/
structure Vertex where
  pos : ℚ × ℚ
  uv : ℚ × ℚ
deriving DecidableEq

/-- `updateQuadWithCorners`: computes the UV coordinate of each corner by
subtracting its offset from its default coordinate, and writes the six
vertices of the two triangles (triangle 1: BL, BR, TL; triangle 2: TL, BR,
TR), keeping the fixed clip-space positions of `quadVerts`. -/
def updateQuadWithCorners (co : CornerOffsetSet) : List Vertex :=
  let uvTL : ℚ × ℚ := (0 - co.TL.x, 0 - co.TL.y)
  let uvTR : ℚ × ℚ := (1 - co.TR.x, 0 - co.TR.y)
  let uvBL : ℚ × ℚ := (0 - co.BL.x, 1 - co.BL.y)
  let uvBR : ℚ × ℚ := (1 - co.BR.x, 1 - co.BR.y)
  [⟨(-1, -1), uvBL⟩, ⟨(1, -1), uvBR⟩, ⟨(-1, 1), uvTL⟩,
   ⟨(-1, 1), uvTL⟩, ⟨(1, -1), uvBR⟩, ⟨(1, 1), uvTR⟩]

/-- Spec-side: the default texture coordinate of each corner
(TopLeft = (0,0), TopRight = (1,0), BottomLeft = (0,1), BottomRight = (1,1)). -/
def defaultUV : Corner → ℚ × ℚ
  | .TL => (0, 0)
  | .TR => (1, 0)
  | .BL => (0, 1)
  | .BR => (1, 1)

/-- Spec-side: the effective texture coordinate of a corner is its default
coordinate minus its offset, component-wise. -/
def effectiveUV (co : CornerOffsetSet) (c : Corner) : ℚ × ℚ :=
  ((defaultUV c).1 - (getOffset co c).x, (defaultUV c).2 - (getOffset co c).y)

/-! ## Fragment shader (`fsSource`) and mirror uniform -/

/-- An RGBA pixel value. -/
abbrev Pix := ℚ × ℚ × ℚ × ℚ

/-- Opaque black, `vec4(0.0, 0.0, 0.0, 1.0)`. -/
def blackPix : Pix := (0, 0, 0, 1)

/-- The `u_mirror` uniform as uploaded per frame:
`videoMirrored ? 1.0 : 0.0`. -/
def mirrorUniform (mirrored : Bool) : ℚ := if mirrored then 1.0 else 0.0

/-- The shader's mirror step: `uv.x = u_mirror > 0.5 ? 1.0 - uv.x : uv.x`. -/
def shaderUV (u_mirror : ℚ) (v_uv : ℚ × ℚ) : ℚ × ℚ :=
  (if u_mirror > 0.5 then 1 - v_uv.1 else v_uv.1, v_uv.2)

/-- The fragment shader body: applies the mirror to the interpolated `v_uv`,
then outputs black if the resulting coordinate leaves `[0,1]` on either axis
and otherwise samples the texture at exactly that coordinate. -/
def fragShader (u_mirror : ℚ) (u_texture : ℚ × ℚ → Pix) (v_uv : ℚ × ℚ) : Pix :=
  let uv := shaderUV u_mirror v_uv
  if uv.1 < 0 ∨ uv.1 > 1 ∨ uv.2 < 0 ∨ uv.2 > 1 then blackPix
  else u_texture uv

/-- Spec-side: a coordinate lies inside the unit square `[0,1] × [0,1]`. -/
abbrev insideUnit (p : ℚ × ℚ) : Prop := 0 ≤ p.1 ∧ p.1 ≤ 1 ∧ 0 ≤ p.2 ∧ p.2 ≤ 1

/-! ## Claim theorems: geometry and shader -/

/-- Claim C1: for every CornerOffsetSet, the geometry engine's effective
texture coordinate for each corner equals that corner's default coordinate
minus its offset, component-wise and exactly with no clamping, and the four
coordinates are assigned to the six quad vertices in the order
triangle 1 = (BL, BR, TL), triangle 2 = (TL, BR, TR). -/
theorem updateQuad_effective_uv (co : CornerOffsetSet) :
    updateQuadWithCorners co =
      [⟨(-1, -1), effectiveUV co .BL⟩, ⟨(1, -1), effectiveUV co .BR⟩,
       ⟨(-1, 1), effectiveUV co .TL⟩, ⟨(-1, 1), effectiveUV co .TL⟩,
       ⟨(1, -1), effectiveUV co .BR⟩, ⟨(1, 1), effectiveUV co .TR⟩] := by
  simp [updateQuadWithCorners, effectiveUV, defaultUV, getOffset]

/-- Claim C8: for every fragment, if the final sample coordinate after
mirroring falls outside `[0,1]` on either axis the output is opaque black,
and otherwise the texture is sampled at exactly that coordinate (never
wrapped or clamped into an edge texel). -/
theorem out_of_bounds_black (u_mirror : ℚ) (tex : ℚ × ℚ → Pix) (v_uv : ℚ × ℚ) :
    (¬ insideUnit (shaderUV u_mirror v_uv) → fragShader u_mirror tex v_uv = blackPix)
    ∧ (insideUnit (shaderUV u_mirror v_uv) →
        fragShader u_mirror tex v_uv = tex (shaderUV u_mirror v_uv)) := by
  constructor
  · intro hout
    unfold fragShader
    rw [if_pos]
    simp only [insideUnit, not_and_or, not_le] at hout
    tauto
  · intro hin
    unfold fragShader
    rw [if_neg]
    obtain ⟨h1, h2, h3, h4⟩ := hin
    push_neg
    exact ⟨h1, h2, h3, h4⟩

/-- A constant white texture, used to witness the bounds theorem. -/
def texWhite : ℚ × ℚ → Pix := fun _ => (1, 1, 1, 1)

/-- Witness for C8: at `v_uv = (2, 0)` the unmirrored shader outputs black,
and at `v_uv = (1/2, 1/2)` it samples the texture at that coordinate. -/
theorem out_of_bounds_black_witness :
    fragShader 0 texWhite (2, 0) = blackPix
    ∧ fragShader 0 texWhite (1/2, 1/2) = texWhite (1/2, 1/2) :=
  ⟨(out_of_bounds_black 0 texWhite (2, 0)).1 (by norm_num [insideUnit, shaderUV]),
   (out_of_bounds_black 0 texWhite (1/2, 1/2)).2 (by norm_num [insideUnit, shaderUV])⟩

/-! ## Keyboard handler (the `keydown` listener) -/

/-- The key codes the handler distinguishes; `other` stands for every
unrecognized code. -/
inductive KeyCode where
  | numpad7
  | numpad9
  | numpad1
  | numpad3
  | numpad5
  | numpad8
  | numpad2
  | numpad4
  | numpad6
  | numpadAdd
  | numpadSubtract
  | space
  | keyF
  | home
  | keyM
  | other
deriving DecidableEq

/-- A key-down event: the logical code and the shift (precision) modifier. -/
structure KeyEvent where
  code : KeyCode
  shiftKey : Bool
deriving DecidableEq

/-- Replace the selected corner's offset in the whole state. -/
def modCorner (st : AppState) (c : Corner) (f : CornerOffset → CornerOffset) : AppState :=
  { st with cornerOffsets := updateCorner st.cornerOffsets c f }

/-- The corner-selection block of the handler: Numpad 7/9/1/3 select a
corner, Numpad 5 clears the selection; each marks the event handled. -/
def selPhase (st : AppState) (e : KeyEvent) : AppState × Bool :=
  match e.code with
  | .numpad7 => ({ st with selectedCorner := some .TL }, true)
  | .numpad9 => ({ st with selectedCorner := some .TR }, true)
  | .numpad1 => ({ st with selectedCorner := some .BL }, true)
  | .numpad3 => ({ st with selectedCorner := some .BR }, true)
  | .numpad5 => ({ st with selectedCorner := none }, true)
  | _ => (st, false)

/-- The tail of the handler: the canvas-window controls (guarded by
"not handled and no corner selected"), then the trailing
"if handled, schedule a save and stop" check, then the mirror toggle in the
fall-through controls.  Returns the new state and whether a debounced save
was scheduled. -/
def restPhase (st : AppState) (handled : Bool) (e : KeyEvent) : AppState × Bool :=
  let step1 : AppState × Bool :=
    if handled = false ∧ st.selectedCorner = none then
      let moveStep : ℚ := if e.shiftKey then 50 else 10
      match e.code with
      | .numpadAdd =>
        let sc := st.canvasScale + (if e.shiftKey then (0.1 : ℚ) else 0.05)
        ({ st with canvasScale := if sc > 2 then 2 else sc }, true)
      | .numpadSubtract =>
        let sc := st.canvasScale - (if e.shiftKey then (0.1 : ℚ) else 0.05)
        ({ st with canvasScale := if sc < 0.2 then 0.2 else sc }, true)
      | .numpad8 => ({ st with canvasY := st.canvasY - moveStep }, true)
      | .numpad2 => ({ st with canvasY := st.canvasY + moveStep }, true)
      | .numpad4 => ({ st with canvasX := st.canvasX - moveStep }, true)
      | .numpad6 => ({ st with canvasX := st.canvasX + moveStep }, true)
      | _ => (st, handled)
    else (st, handled)
  if step1.2 then (step1.1, true)
  else
    match e.code with
    | .keyM => ({ step1.1 with videoMirrored := !step1.1.videoMirrored }, true)
    | _ => (step1.1, false)

/-- The full key-down handler: corner selection, then (when a corner is
selected) the corner-movement block with its normalized step
`pixelStep / (videoWidth or 1920)` and early handled-exit, then the rest.
`videoWidth`/`videoHeight` are the video's pixel dimensions, `0` standing for
a falsy (absent) dimension.  Returns the new state and whether
`saveSettingsDebounced` was called. -/
def keydown (videoWidth videoHeight : ℕ) (st0 : AppState) (e : KeyEvent) :
    AppState × Bool :=
  let sel := selPhase st0 e
  match sel.1.selectedCorner with
  | some c =>
    let w : ℚ := if videoWidth = 0 then 1920 else videoWidth
    let h : ℚ := if videoHeight = 0 then 1080 else videoHeight
    let pixelStep : ℚ := if e.shiftKey then 10 else 1
    let sx := pixelStep / w
    let sy := pixelStep / h
    let move : AppState × Bool :=
      match e.code with
      | .numpad8 => (modCorner sel.1 c (fun o => { o with y := o.y - sy }), true)
      | .numpad2 => (modCorner sel.1 c (fun o => { o with y := o.y + sy }), true)
      | .numpad4 => (modCorner sel.1 c (fun o => { o with x := o.x - sx }), true)
      | .numpad6 => (modCorner sel.1 c (fun o => { o with x := o.x + sx }), true)
      | _ => (sel.1, sel.2)
    if move.2 then (move.1, true) else restPhase move.1 move.2 e
  | none => restPhase sel.1 sel.2 e

/-- The dimensions computed at the top of `drawCornerIndicators`:
`video.videoWidth || 1920` and `video.videoHeight || 1080`. -/
def indicatorVideoDims (videoWidth videoHeight : ℕ) : ℚ × ℚ :=
  (if videoWidth = 0 then 1920 else videoWidth,
   if videoHeight = 0 then 1080 else videoHeight)

/-! ## Spec-side descriptions of the directional transitions -/

/-- The four directional keys (Numpad 8/2/4/6). -/
inductive Dir where
  | up
  | down
  | left
  | right
deriving DecidableEq

/-- The key code of each directional key. -/
def dirCode : Dir → KeyCode
  | .up => .numpad8
  | .down => .numpad2
  | .left => .numpad4
  | .right => .numpad6

/-- Spec-side: nudging corner `c` moves exactly that corner's offset on
exactly one axis by the given normalized step, leaving the other axis, the
other corners, the view transform and the mode untouched. -/
def nudgeCorner (st : AppState) (c : Corner) (d : Dir) (sx sy : ℚ) : AppState :=
  { st with cornerOffsets :=
      updateCorner st.cornerOffsets c (fun o =>
        match d with
        | .up => { o with y := o.y - sy }
        | .down => { o with y := o.y + sy }
        | .left => { o with x := o.x - sx }
        | .right => { o with x := o.x + sx }) }

/-- Spec-side: panning moves exactly `canvasX` or `canvasY` by the pixel
step, leaving offsets and the mode untouched. -/
def panCanvas (st : AppState) (d : Dir) (step : ℚ) : AppState :=
  match d with
  | .up => { st with canvasY := st.canvasY - step }
  | .down => { st with canvasY := st.canvasY + step }
  | .left => { st with canvasX := st.canvasX - step }
  | .right => { st with canvasX := st.canvasX + step }

/-! ## Claim theorems: input routing -/

/-- Claim C2: with a corner selected, a directional key mutates exactly that
corner's offset on exactly one axis by `(shift ? 10 : 1) / video dimension`
and changes nothing else; with no selection, the same key pans the canvas by
the pixel step (10, or 50 with shift) and leaves every corner offset and the
mode unchanged.  Both schedule a save. -/
theorem directional_key_routing (w h : ℕ) (hw : w ≠ 0) (hh : h ≠ 0)
    (s : AppState) (d : Dir) (shift : Bool) :
    (∀ c, s.selectedCorner = some c →
      keydown w h s ⟨dirCode d, shift⟩
        = (nudgeCorner s c d ((if shift then 10 else 1) / (w : ℚ))
            ((if shift then 10 else 1) / (h : ℚ)), true))
    ∧ (s.selectedCorner = none →
      keydown w h s ⟨dirCode d, shift⟩
        = (panCanvas s d (if shift then 50 else 10), true)) := by
  constructor
  · intro c hc
    cases d <;>
      simp [keydown, selPhase, restPhase, nudgeCorner, modCorner, dirCode, hc, hw, hh]
  · intro hc
    cases d <;>
      simp [keydown, selPhase, restPhase, panCanvas, dirCode, hc]

/-- Witness for C2: at 1920×1080 with TopLeft selected, an unmodified
"move left" subtracts exactly `1/1920` from `offsets[TL].x` and changes
nothing else; with no selection it pans `canvasX` by `-10`. -/
theorem directional_key_routing_witness :
    keydown 1920 1080 { initialApp with selectedCorner := some .TL } ⟨.numpad4, false⟩
      = (nudgeCorner { initialApp with selectedCorner := some .TL } .TL .left
          ((1 : ℚ) / 1920) ((1 : ℚ) / 1080), true)
    ∧ keydown 1920 1080 initialApp ⟨.numpad4, false⟩
      = (panCanvas initialApp .left 10, true) := by
  constructor
  · have := (directional_key_routing 1920 1080 (by norm_num) (by norm_num)
      { initialApp with selectedCorner := some .TL } .left false).1 .TL rfl
    simpa using this
  · have := (directional_key_routing 1920 1080 (by norm_num) (by norm_num)
      initialApp .left false).2 rfl
    simpa using this

/-- The payload captured by a save: exactly the persisted fields of the
state (the transient selection is not part of it). -/
structure Settings where
  canvasScale : ℚ
  canvasX : ℚ
  canvasY : ℚ
  mirrored : Bool
  cornerOffsets : CornerOffsetSet
deriving DecidableEq

/-- The save payload read from the current state at write time. -/
def payloadOf (s : AppState) : Settings :=
  ⟨s.canvasScale, s.canvasX, s.canvasY, s.videoMirrored, s.cornerOffsets⟩

/-- Claim C9: each corner-select key (Numpad 7/9/1/3) and the deselect key
(Numpad 5) changes only the transient selection, mutates no persisted field,
and still schedules a debounced save. -/
theorem selection_keys_schedule_save (w h : ℕ) (s : AppState) (shift : Bool) :
    keydown w h s ⟨.numpad7, shift⟩ = ({ s with selectedCorner := some .TL }, true)
    ∧ keydown w h s ⟨.numpad9, shift⟩ = ({ s with selectedCorner := some .TR }, true)
    ∧ keydown w h s ⟨.numpad1, shift⟩ = ({ s with selectedCorner := some .BL }, true)
    ∧ keydown w h s ⟨.numpad3, shift⟩ = ({ s with selectedCorner := some .BR }, true)
    ∧ keydown w h s ⟨.numpad5, shift⟩ = ({ s with selectedCorner := none }, true)
    ∧ payloadOf (keydown w h s ⟨.numpad7, shift⟩).1 = payloadOf s
    ∧ payloadOf (keydown w h s ⟨.numpad9, shift⟩).1 = payloadOf s
    ∧ payloadOf (keydown w h s ⟨.numpad1, shift⟩).1 = payloadOf s
    ∧ payloadOf (keydown w h s ⟨.numpad3, shift⟩).1 = payloadOf s
    ∧ payloadOf (keydown w h s ⟨.numpad5, shift⟩).1 = payloadOf s := by
  refine ⟨?_, ?_, ?_, ?_, ?_, ?_, ?_, ?_, ?_, ?_⟩ <;>
    simp [keydown, selPhase, restPhase, payloadOf]

/-- Claim C7: mirroring happens only at sample time — the shader's lookup
x-coordinate is `1 − u` exactly when the mirror uniform says mirrored — and
the mirror-toggle key flips only the `videoMirrored` boolean: it leaves every
corner offset, and hence the geometry engine's quad, unchanged. -/
theorem mirror_sample_time_only :
    (∀ (m : Bool) (v_uv : ℚ × ℚ),
      shaderUV (mirrorUniform m) v_uv
        = ((if m then 1 - v_uv.1 else v_uv.1), v_uv.2))
    ∧ (∀ (w h : ℕ) (s : AppState) (shift : Bool),
      keydown w h s ⟨.keyM, shift⟩
        = ({ s with videoMirrored := !s.videoMirrored }, true))
    ∧ (∀ (w h : ℕ) (s : AppState) (shift : Bool),
      updateQuadWithCorners (keydown w h s ⟨.keyM, shift⟩).1.cornerOffsets
        = updateQuadWithCorners s.cornerOffsets) := by
  refine ⟨?_, ?_, ?_⟩
  · intro m v_uv
    cases m <;> norm_num [shaderUV, mirrorUniform]
  · intro w h s shift
    rcases hsel : s.selectedCorner with _ | c <;>
      simp [keydown, selPhase, restPhase, hsel]
  · intro w h s shift
    rcases hsel : s.selectedCorner with _ | c <;>
      simp [keydown, selPhase, restPhase, hsel]

/-- Claim C10: with the video's pixel dimensions unavailable (0), a corner
nudge converts the pixel step with the fallback dimensions 1920×1080 — an
unmodified horizontal nudge changes the selected corner's x offset by exactly
`1/1920` — and `drawCornerIndicators` computes the same fallback dimensions. -/
theorem fallback_dims_nudge (s : AppState) (c : Corner)
    (hc : s.selectedCorner = some c) :
    keydown 0 0 s ⟨.numpad4, false⟩
      = (nudgeCorner s c .left ((1 : ℚ) / 1920) ((1 : ℚ) / 1080), true)
    ∧ (getOffset (keydown 0 0 s ⟨.numpad4, false⟩).1.cornerOffsets c).x
      = (getOffset s.cornerOffsets c).x - 1 / 1920
    ∧ indicatorVideoDims 0 0 = (1920, 1080) := by
  refine ⟨?_, ?_, by norm_num [indicatorVideoDims]⟩
  · simp [keydown, selPhase, restPhase, nudgeCorner, modCorner, hc]
  · simp [keydown, selPhase, restPhase, modCorner, hc]
    cases c <;> simp [updateCorner, getOffset]

/-- Witness for C10: with TopLeft selected and no video dimensions, one
unmodified left nudge lands `offsets[TL].x` at exactly `-1/1920`. -/
theorem fallback_dims_nudge_witness :
    (getOffset (keydown 0 0 { initialApp with selectedCorner := some .TL }
        ⟨.numpad4, false⟩).1.cornerOffsets .TL).x = 0 - 1 / 1920 := by
  have := (fallback_dims_nudge { initialApp with selectedCorner := some .TL } .TL rfl).2.1
  simpa [initialApp, zeroCorners, getOffset] using this

/-! ## Settings store (`loadSettings` / the save payload) -/

/-- A JSON-style dynamic value, the possible results of `JSON.parse`. -/
inductive JVal where
  | jnum : ℚ → JVal
  | jbool : Bool → JVal
  | jstr : String → JVal
  | jnull : JVal
  | jobj : List (String × JVal) → JVal

/-- The durable slot: no entry, an unparseable entry, or a parsed value. -/
inductive Slot where
  | empty : Slot
  | unparseable : Slot
  | parsed : JVal → Slot

/-- First-match lookup in an object's key-value list. -/
def lookupKey : List (String × JVal) → String → Option JVal
  | [], _ => none
  | (k1, v) :: rest, k => if k1 = k then some v else lookupKey rest k

/-- Property access `v[k]`: a field of an object, `none` for the undefined
result on every non-object. -/
def getField (v : JVal) (k : String) : Option JVal :=
  match v with
  | .jobj kvs => lookupKey kvs k
  | _ => none

/-- JavaScript truthiness of a value. -/
def truthy : JVal → Bool
  | .jnum q => if q = 0 then false else true
  | .jbool b => b
  | .jstr s => if s = "" then false else true
  | .jnull => false
  | .jobj _ => true

/-- `typeof v === "object"` (true for objects and for null). -/
def isObjectType : JVal → Bool
  | .jobj _ => true
  | .jnull => true
  | _ => false

/-- `typeof v[k] === "number"` combined with reading the number. -/
def readNum (v : JVal) (k : String) : Option ℚ :=
  match getField v k with
  | some (.jnum q) => some q
  | _ => none

/-- `typeof v[k] === "boolean"` combined with reading the boolean. -/
def readBool (v : JVal) (k : String) : Option Bool :=
  match getField v k with
  | some (.jbool b) => some b
  | _ => none

/-- The compiled-in `DEFAULT_SETTINGS` record. -/
def DEFAULT_SETTINGS : Settings := ⟨1.0, 0, 0, false, zeroCorners⟩

/-- The per-corner fix-up of `loadSettings`: keep a corner entry only when it
is truthy with numeric `x` and `y`, otherwise replace it by `(0,0)`. -/
def fixEntry (co : JVal) (k : String) : CornerOffset :=
  match getField co k with
  | some entry =>
    if truthy entry then
      match readNum entry "x", readNum entry "y" with
      | some x, some y => ⟨x, y⟩
      | _, _ => ⟨0, 0⟩
    else ⟨0, 0⟩
  | none => ⟨0, 0⟩

/-- The `cornerOffsets` validation of `loadSettings`: when the field is not a
truthy object the whole set is replaced by the default, otherwise each of the
four corners is fixed up individually. -/
def fixCorners (co : Option JVal) : CornerOffsetSet :=
  match co with
  | some v =>
    if truthy v && isObjectType v then
      ⟨fixEntry v "TL", fixEntry v "TR", fixEntry v "BL", fixEntry v "BR"⟩
    else DEFAULT_SETTINGS.cornerOffsets
  | none => DEFAULT_SETTINGS.cornerOffsets

/-- `loadSettings`: defaults on a missing or unparseable entry, defaults when
any top-level field fails its type check, and otherwise the parsed values
with the corner set validated. -/
def loadSettings : Slot → Settings
  | .empty => DEFAULT_SETTINGS
  | .unparseable => DEFAULT_SETTINGS
  | .parsed data =>
    match readNum data "canvasScale", readNum data "canvasX",
        readNum data "canvasY", readBool data "mirrored" with
    | some sc, some cx, some cy, some m =>
      ⟨sc, cx, cy, m, fixCorners (getField data "cornerOffsets")⟩
    | _, _, _, _ => DEFAULT_SETTINGS

/-- Spec-side: each entry inside CornerOffsetSet is looked up independently
and a missing or non-numeric entry is replaced by `(0,0)` while the others
are preserved. -/
def repairEntry (data : JVal) (k : String) : CornerOffset :=
  match getField data "cornerOffsets" with
  | some co =>
    match getField co k with
    | some entry =>
      match readNum entry "x", readNum entry "y" with
      | some x, some y => ⟨x, y⟩
      | _, _ => ⟨0, 0⟩
    | none => ⟨0, 0⟩
  | none => ⟨0, 0⟩

/-- Spec-side load contract: the compiled-in default record when the slot is
empty, unparseable, or a top-level ViewTransform field fails its type check;
otherwise the parsed record over the defaults with each corner entry
individually repaired. -/
def loadSpec : Slot → Settings
  | .empty => DEFAULT_SETTINGS
  | .unparseable => DEFAULT_SETTINGS
  | .parsed data =>
    match readNum data "canvasScale", readNum data "canvasX",
        readNum data "canvasY", readBool data "mirrored" with
    | some sc, some cx, some cy, some m =>
      ⟨sc, cx, cy, m,
       ⟨repairEntry data "TL", repairEntry data "TR",
        repairEntry data "BL", repairEntry data "BR"⟩⟩
    | _, _, _, _ => DEFAULT_SETTINGS

lemma fixEntry_eq_repair_inner (v : JVal) (k : String) :
    fixEntry v k
      = (match getField v k with
         | some entry =>
           match readNum entry "x", readNum entry "y" with
           | some x, some y => (⟨x, y⟩ : CornerOffset)
           | _, _ => ⟨0, 0⟩
         | none => ⟨0, 0⟩) := by
  unfold fixEntry
  cases hge : getField v k with
  | none => rfl
  | some entry =>
    cases entry with
    | jobj kvs => simp [truthy]
    | jnum q =>
      by_cases hq : q = 0 <;> simp [truthy, hq, readNum, getField]
    | jbool b => cases b <;> simp [truthy, readNum, getField]
    | jstr s =>
      by_cases hs : s = "" <;> simp [truthy, hs, readNum, getField]
    | jnull => simp [truthy, readNum, getField]

lemma fixCorners_eq_repair (data : JVal) :
    fixCorners (getField data "cornerOffsets")
      = ⟨repairEntry data "TL", repairEntry data "TR",
         repairEntry data "BL", repairEntry data "BR"⟩ := by
  unfold fixCorners repairEntry
  cases hco : getField data "cornerOffsets" with
  | none => rfl
  | some v =>
    cases v with
    | jobj kvs =>
      simp [truthy, isObjectType, fixEntry_eq_repair_inner]
    | jnum q =>
      by_cases hq : q = 0 <;>
        simp [truthy, isObjectType, hq, getField, DEFAULT_SETTINGS, zeroCorners]
    | jbool b =>
      cases b <;> simp [truthy, isObjectType, getField, DEFAULT_SETTINGS, zeroCorners]
    | jstr s =>
      by_cases hs : s = "" <;>
        simp [truthy, isObjectType, hs, getField, DEFAULT_SETTINGS, zeroCorners]
    | jnull => simp [truthy, isObjectType, getField, DEFAULT_SETTINGS, zeroCorners]

/-! ## Claim theorems: settings store -/

/-- Claim C4: `loadSettings` is total and returns a structurally complete
record following exactly the spec's decode policy — the compiled-in default
record when the slot is empty, unparseable, or a top-level field fails its
type check, and otherwise the parsed record with each missing or non-numeric
corner entry individually replaced by `(0,0)` while the remaining corner
entries are preserved unchanged. -/
theorem loadSettings_total_repair (slot : Slot) :
    loadSettings slot = loadSpec slot := by
  cases slot with
  | empty => rfl
  | unparseable => rfl
  | parsed data =>
    unfold loadSettings loadSpec
    rcases readNum data "canvasScale" with _ | sc <;>
    rcases readNum data "canvasX" with _ | cx <;>
    rcases readNum data "canvasY" with _ | cy <;>
    rcases readBool data "mirrored" with _ | m <;>
      simp [fixCorners_eq_repair data]

/-- The JSON encoding of one corner offset as written by the save payload. -/
def cornerJson (o : CornerOffset) : JVal := .jobj [("x", .jnum o.x), ("y", .jnum o.y)]

/-- The payload written by the debounced save (and the unload flush):
`{canvasScale, canvasX, canvasY, mirrored, cornerOffsets}` with the four
corner records. -/
def savePayload (s : Settings) : JVal :=
  .jobj [("canvasScale", .jnum s.canvasScale),
         ("canvasX", .jnum s.canvasX),
         ("canvasY", .jnum s.canvasY),
         ("mirrored", .jbool s.mirrored),
         ("cornerOffsets",
          .jobj [("TL", cornerJson s.cornerOffsets.TL),
                 ("TR", cornerJson s.cornerOffsets.TR),
                 ("BL", cornerJson s.cornerOffsets.BL),
                 ("BR", cornerJson s.cornerOffsets.BR)])]

/-- The configured scale bounds of the canvas controls. -/
def minScale : ℚ := 0.2

/-- The configured upper scale bound. -/
def maxScale : ℚ := 2

/-- Claim C5: round-trip — loading the record produced by saving any
structurally valid settings record (scale within bounds) yields the same
record, field for field. -/
theorem save_load_roundtrip (S : Settings)
    (h1 : minScale ≤ S.canvasScale) (h2 : S.canvasScale ≤ maxScale) :
    loadSettings (.parsed (savePayload S)) = S := rfl

/-- Witness for C5: the round-trip at a concrete in-bounds record. -/
theorem save_load_roundtrip_witness :
    loadSettings (.parsed (savePayload ⟨1.5, 3, -7, true, ⟨⟨1/4, 0⟩, ⟨0, 0⟩, ⟨-2, 5⟩, ⟨0, 1⟩⟩⟩))
      = ⟨1.5, 3, -7, true, ⟨⟨1/4, 0⟩, ⟨0, 0⟩, ⟨-2, 5⟩, ⟨0, 1⟩⟩⟩ :=
  save_load_roundtrip ⟨1.5, 3, -7, true, ⟨⟨1/4, 0⟩, ⟨0, 0⟩, ⟨-2, 5⟩, ⟨0, 1⟩⟩⟩
    (by norm_num [minScale]) (by norm_num [maxScale])

/-! ## Startup hydration and the scale range -/

/-- The load-on-start block: copy the loaded settings into the module state;
the selection starts out cleared. -/
def hydrate (slot : Slot) : AppState :=
  let s := loadSettings slot
  ⟨s.canvasScale, s.canvasX, s.canvasY, s.mirrored, s.cornerOffsets, none⟩

/-- A stored record whose scale is a plain number far outside the configured
range; it passes every type check of `loadSettings`. -/
def oversizedSlot : Slot :=
  .parsed (.jobj [("canvasScale", .jnum 50), ("canvasX", .jnum 0),
                  ("canvasY", .jnum 0), ("mirrored", .jbool false)])

/-- Counterexample to claim C6: hydration from storage does not clamp the
scale — loading a stored record with `canvasScale = 50` leaves the view
transform's scale at 50, outside `[0.2, 2.0]`. -/
theorem scale_hydration_unclamped :
    (hydrate oversizedSlot).canvasScale = 50
    ∧ ¬ (hydrate oversizedSlot).canvasScale ≤ maxScale := by
  have h : (hydrate oversizedSlot).canvasScale = 50 := rfl
  refine ⟨h, ?_⟩
  rw [h]
  norm_num [maxScale]

/-- The scale stored in a slot, when the slot parses and holds a number
there. -/
def slotScale : Slot → Option ℚ
  | .parsed data => readNum data "canvasScale"
  | _ => none

lemma keydown_scale_bounds (w h : ℕ) (s : AppState) (e : KeyEvent)
    (h1 : minScale ≤ s.canvasScale) (h2 : s.canvasScale ≤ maxScale) :
    minScale ≤ (keydown w h s e).1.canvasScale
      ∧ (keydown w h s e).1.canvasScale ≤ maxScale := by
  obtain ⟨code, shift⟩ := e
  rcases hsel : s.selectedCorner with _ | c <;> cases code <;> cases shift <;>
    simp [keydown, selPhase, restPhase, modCorner, hsel] <;>
    first
      | exact ⟨h1, h2⟩
      | (simp only [minScale, maxScale] at h1 h2 ⊢
         split_ifs <;> constructor <;> norm_num at * <;> linarith)

lemma foldl_keydown_scale_bounds (w h : ℕ) (s : AppState) (es : List KeyEvent)
    (h1 : minScale ≤ s.canvasScale) (h2 : s.canvasScale ≤ maxScale) :
    minScale ≤ (es.foldl (fun a e => (keydown w h a e).1) s).canvasScale
      ∧ (es.foldl (fun a e => (keydown w h a e).1) s).canvasScale ≤ maxScale := by
  induction es generalizing s with
  | nil => exact ⟨h1, h2⟩
  | cons e rest ih =>
    have hb := keydown_scale_bounds w h s e h1 h2
    exact ih _ hb.1 hb.2

/-- Claim C6, amended: one scale-up press with the precision modifier from
scale 1.0 yields exactly 1.10; scale-down clamps symmetrically at the
minimum 0.2; no sequence of key presses starting with the scale in
`[0.2, 2.0]` ever leaves it outside that range; and hydration keeps the scale
in range provided any stored numeric scale is itself in range (the stored
number is adopted verbatim, without clamping). -/
theorem scale_invariant_amended :
    (∀ (w h : ℕ) (s : AppState), s.selectedCorner = none → s.canvasScale = 1 →
      (keydown w h s ⟨.numpadAdd, true⟩).1.canvasScale = 1.1)
    ∧ (∀ (w h : ℕ) (s : AppState), s.selectedCorner = none → s.canvasScale = 0.25 →
      (keydown w h s ⟨.numpadSubtract, true⟩).1.canvasScale = minScale)
    ∧ (∀ (w h : ℕ) (s : AppState) (es : List KeyEvent),
      minScale ≤ s.canvasScale → s.canvasScale ≤ maxScale →
      minScale ≤ (es.foldl (fun a e => (keydown w h a e).1) s).canvasScale
        ∧ (es.foldl (fun a e => (keydown w h a e).1) s).canvasScale ≤ maxScale)
    ∧ (∀ slot : Slot, (∀ q, slotScale slot = some q → minScale ≤ q ∧ q ≤ maxScale) →
      minScale ≤ (hydrate slot).canvasScale ∧ (hydrate slot).canvasScale ≤ maxScale) := by
  refine ⟨?_, ?_, foldl_keydown_scale_bounds, ?_⟩
  · intro w h s hsel hsc
    simp [keydown, selPhase, restPhase, hsel, hsc]
    norm_num
  · intro w h s hsel hsc
    simp [keydown, selPhase, restPhase, hsel, hsc, minScale]
    norm_num
  · intro slot hq
    cases slot with
    | empty => norm_num [hydrate, loadSettings, DEFAULT_SETTINGS, minScale, maxScale]
    | unparseable => norm_num [hydrate, loadSettings, DEFAULT_SETTINGS, minScale, maxScale]
    | parsed data =>
      unfold hydrate loadSettings
      rcases h1 : readNum data "canvasScale" with _ | sc <;>
      rcases h2 : readNum data "canvasX" with _ | cx <;>
      rcases h3 : readNum data "canvasY" with _ | cy <;>
      rcases h4 : readBool data "mirrored" with _ | m <;>
        simp only [h1, h2, h3, h4, DEFAULT_SETTINGS] <;>
        first
          | exact hq sc (by simp [slotScale, h1])
          | norm_num [minScale, maxScale]

/-- Witness for the amended C6: from the initial state, one precision
scale-up lands at 1.1; twelve precision scale-ups stay within the range; and
hydrating an empty slot lands in range. -/
theorem scale_invariant_amended_witness :
    (keydown 0 0 initialApp ⟨.numpadAdd, true⟩).1.canvasScale = 1.1
    ∧ (minScale ≤ ((List.replicate 12 (⟨.numpadAdd, true⟩ : KeyEvent)).foldl
          (fun a e => (keydown 0 0 a e).1) initialApp).canvasScale
      ∧ ((List.replicate 12 (⟨.numpadAdd, true⟩ : KeyEvent)).foldl
          (fun a e => (keydown 0 0 a e).1) initialApp).canvasScale ≤ maxScale)
    ∧ (minScale ≤ (hydrate .empty).canvasScale ∧ (hydrate .empty).canvasScale ≤ maxScale) :=
  ⟨scale_invariant_amended.1 0 0 initialApp rfl (by norm_num [initialApp]),
   scale_invariant_amended.2.2.1 0 0 initialApp
     (List.replicate 12 ⟨.numpadAdd, true⟩) (by norm_num [initialApp, minScale])
     (by norm_num [initialApp, maxScale]),
   scale_invariant_amended.2.2.2 .empty (by intro q hsq; simp [slotScale] at hsq)⟩

/-! ## Debounced persistence (`saveSettingsDebounced`)

The debounce is modelled on the event-loop timeline: the system state holds
the pending timer's absolute fire time (if any).  A key event first lets a
due timer fire (writing the payload read from the *current* state, as the
timeout closure does), then runs the handler, and — when the handler called
`saveSettingsDebounced` — cancels any pending timer and re-arms it 300ms
after the event, exactly as `clearTimeout` plus `setTimeout` do. -/

/-- The fixed debounce delay (`delay = 300`). -/
def debounceDelay : ℚ := 300

/-- Renderer state plus the pending save timer's absolute fire time. -/
structure Sys where
  app : AppState
  pendingFire : Option ℚ
deriving DecidableEq

/-- Fire the pending timer if its time has come: the write carries the
payload read from the current state, and the timer handle is cleared. -/
def fireDue (now : ℚ) (s : Sys) : Sys × List Settings :=
  match s.pendingFire with
  | some t => if t ≤ now then (⟨s.app, none⟩, [payloadOf s.app]) else (s, [])
  | none => (s, [])

/-- Process one timed key event: let a due timer fire, run the handler, and
re-arm the timer at `now + 300` when the handler scheduled a save. -/
def stepTimed (w h : ℕ) (s : Sys) (now : ℚ) (e : KeyEvent) : Sys × List Settings :=
  let fired := fireDue now s
  let handled := keydown w h fired.1.app e
  (⟨handled.1, if handled.2 then some (now + debounceDelay) else fired.1.pendingFire⟩,
   fired.2)

/-- Run a time-ordered list of key events, collecting every durable write. -/
def runTrace (w h : ℕ) (s : Sys) : List (ℚ × KeyEvent) → Sys × List Settings
  | [] => (s, [])
  | (t, e) :: rest =>
    let s1 := stepTimed w h s t e
    let s2 := runTrace w h s1.1 rest
    (s2.1, s1.2 ++ s2.2)

/-- After the last event, let time pass: a still-pending timer fires once,
writing the payload of the final state. -/
def drainTimer (s : Sys) : List Settings :=
  match s.pendingFire with
  | some _ => [payloadOf s.app]
  | none => []

/-- The whole run: process the events, then wait out the quiet period. -/
def runAndDrain (w h : ℕ) (app : AppState) (tr : List (ℚ × KeyEvent)) : List Settings :=
  let r := runTrace w h ⟨app, none⟩ tr
  r.2 ++ drainTimer r.1

/-- All events of the trace fall inside one debounce window: each event
arrives strictly less than 300ms after the previous one. -/
def inWindow : List (ℚ × KeyEvent) → Bool
  | [] => true
  | [_] => true
  | (t1, _) :: (t2, e2) :: rest =>
    decide (t2 < t1 + debounceDelay) && inWindow ((t2, e2) :: rest)

/-- Every event of the trace is mutating: run on the state it encounters,
the handler schedules a save. -/
def allSched (w h : ℕ) : AppState → List (ℚ × KeyEvent) → Bool
  | _, [] => true
  | app, (_, e) :: rest =>
    (keydown w h app e).2 && allSched w h (keydown w h app e).1 rest

/-- The state after folding the handler over the events. -/
def finalApp (w h : ℕ) (app : AppState) (tr : List (ℚ × KeyEvent)) : AppState :=
  tr.foldl (fun a te => (keydown w h a te.2).1) app

/-- The time of the trace's last event (`d` for the empty trace). -/
def lastTime (d : ℚ) : List (ℚ × KeyEvent) → ℚ
  | [] => d
  | (t, _) :: rest => lastTime t rest

lemma runTrace_in_window (w h : ℕ) (rest : List (ℚ × KeyEvent)) :
    ∀ (app : AppState) (p : Option ℚ) (t : ℚ) (e : KeyEvent),
      (∀ u, p = some u → t < u) →
      inWindow ((t, e) :: rest) = true →
      allSched w h app ((t, e) :: rest) = true →
      runTrace w h ⟨app, p⟩ ((t, e) :: rest)
        = (⟨finalApp w h app ((t, e) :: rest), some (lastTime t rest + debounceDelay)⟩, []) := by
  induction rest with
  | nil =>
    intro app p t e hp _ hs
    rcases Bool.and_eq_true_iff.mp hs with ⟨hs1, _⟩
    have hfire : fireDue t ⟨app, p⟩ = (⟨app, p⟩, []) := by
      cases hpv : p with
      | none => rfl
      | some u =>
        have := hp u hpv
        simp [fireDue, not_le.mpr this]
    simp [runTrace, stepTimed, hfire, hs1, finalApp, lastTime]
  | cons te2 rest2 ih =>
    intro app p t e hp hw hs
    obtain ⟨t2, e2⟩ := te2
    rcases Bool.and_eq_true_iff.mp hs with ⟨hs1, hs2⟩
    rcases Bool.and_eq_true_iff.mp hw with ⟨hw1, hw2⟩
    have ht2 : t2 < t + debounceDelay := of_decide_eq_true hw1
    have hfire : fireDue t ⟨app, p⟩ = (⟨app, p⟩, []) := by
      cases hpv : p with
      | none => rfl
      | some u =>
        have := hp u hpv
        simp [fireDue, not_le.mpr this]
    have hrec := ih (keydown w h app e).1 (some (t + debounceDelay)) t2 e2
      (by intro u hu; injection hu with hu; rw [← hu]; exact ht2) hw2 hs2
    have hstep : stepTimed w h ⟨app, p⟩ t e
        = (⟨(keydown w h app e).1, some (t + debounceDelay)⟩, []) := by
      simp [stepTimed, hfire, hs1]
    have hexp : runTrace w h ⟨app, p⟩ ((t, e) :: (t2, e2) :: rest2)
        = ((runTrace w h (stepTimed w h ⟨app, p⟩ t e).1 ((t2, e2) :: rest2)).1,
           (stepTimed w h ⟨app, p⟩ t e).2
             ++ (runTrace w h (stepTimed w h ⟨app, p⟩ t e).1 ((t2, e2) :: rest2)).2) := rfl
    rw [hexp, hstep]
    simp only [hrec]
    simp [finalApp, lastTime]

/-- Claim C3: `saveSettingsDebounced` is a trailing debounce — any nonempty
sequence of mutating key events all falling inside one 300ms debounce window
produces exactly one durable write, and that write carries the state after
the last mutation. -/
theorem debounced_save_single_write (w h : ℕ) (app : AppState)
    (tr : List (ℚ × KeyEvent)) (hne : tr ≠ [])
    (hw : inWindow tr = true) (hs : allSched w h app tr = true) :
    runAndDrain w h app tr = [payloadOf (finalApp w h app tr)] := by
  match tr, hne with
  | (t, e) :: rest, _ =>
    unfold runAndDrain
    rw [runTrace_in_window w h rest app none t e (by intro u hu; cases hu) hw hs]
    simp [drainTimer]

/-- Witness for C3: three unmodified pans at 0ms, 100ms and 250ms — all
inside one debounce window — yield exactly one write, holding the state
after the third press (`canvasX = -30`). -/
theorem debounced_save_single_write_witness :
    runAndDrain 1920 1080 initialApp
        [(0, ⟨.numpad4, false⟩), (100, ⟨.numpad4, false⟩), (250, ⟨.numpad4, false⟩)]
      = [payloadOf (finalApp 1920 1080 initialApp
          [(0, ⟨.numpad4, false⟩), (100, ⟨.numpad4, false⟩), (250, ⟨.numpad4, false⟩)])]
    ∧ payloadOf (finalApp 1920 1080 initialApp
          [(0, ⟨.numpad4, false⟩), (100, ⟨.numpad4, false⟩), (250, ⟨.numpad4, false⟩)])
      = ⟨1.0, -30, 0, false, zeroCorners⟩ := by
  constructor
  · exact debounced_save_single_write 1920 1080 initialApp
      [(0, ⟨.numpad4, false⟩), (100, ⟨.numpad4, false⟩), (250, ⟨.numpad4, false⟩)]
      (by simp)
      (by norm_num [inWindow, debounceDelay])
      (by simp [allSched, keydown, selPhase, restPhase, initialApp])
  · simp [finalApp, payloadOf, keydown, selPhase, restPhase, initialApp]
    norm_num

end AVP
